import Mathlib

/-!
Verification development for the EU public-consultations scraper
(`scraper.py`).  The scraper's interactions with the browser page are
modelled by explicit behaviour records: every operation against the page
capability either returns a value or fails with an exception message
(`Except String _`).  All pure string manipulation (URL normalization,
consultation-URL construction, initiative-id extraction, title
classification, the captured-request map) is translated directly from the
source.  DOM scans whose internals no property depends on (the topic
term/definition scan, the period span, the feedback-count subheading) are
abstracted as oracle inputs delivering the scanned value or an exception,
with the surrounding control flow (falsy checks, `strip`, try/except
structure) kept from the source.
-/

/-- Python `pat in s` substring test on character lists. -/
def listHasSub : List Char → List Char → Bool
  | _, [] => true
  | [], _ :: _ => false
  | c :: rest, p :: ps =>
      List.isPrefixOf (p :: ps) (c :: rest) || listHasSub rest (p :: ps)

/-- Python `pat in s` substring test on strings. -/
def containsSub (s pat : String) : Bool :=
  listHasSub s.data pat.data

/-- Python `s.lower()` (ASCII). -/
def strLower (s : String) : String :=
  String.mk (s.data.map Char.toLower)

/-- Python `s.strip()`. -/
def strStrip (s : String) : String :=
  String.mk (((s.data.dropWhile Char.isWhitespace).reverse.dropWhile Char.isWhitespace).reverse)

/-- Python `s.startswith(t)`. -/
def strStartsWith (s t : String) : Bool :=
  List.isPrefixOf t.data s.data

/-- Python `s.endswith(t)`. -/
def strEndsWith (s t : String) : Bool :=
  List.isSuffixOf t.data s.data

/-- Python `s.rstrip('/')`: drop all trailing slashes. -/
def rstripSlash (s : String) : String :=
  String.mk ((s.data.reverse.dropWhile (· == '/')).reverse)

/-- Python `s[:-3]`: drop the last three characters. -/
def dropLast3 (s : String) : String :=
  String.mk (s.data.take (s.data.length - 3))

/-- Python `s.split('?')[0]`: the text before the first question mark. -/
def stripQuery (s : String) : String :=
  String.mk (s.data.takeWhile (· ≠ '?'))

/-- `scraper.py` lines 125-132: make a discovered href absolute and strip
the query string. -/
def normalizeUrl (href : String) : String :=
  let full := if strStartsWith href "/" then "https://ec.europa.eu" ++ href else href
  stripQuery full

/-- One result card on a listing page: `linkHref = none` models a card with
no initiative link element, `some none` a link element with no `href`
attribute, `some (some h)` a link with href `h`
(`scraper.py` lines 120-124). -/
structure Card where
  linkHref : Option (Option String)
deriving DecidableEq

/-- The normalized URL a card contributes, if any: the code requires a link
element, a truthy (non-empty) href, then normalizes
(`scraper.py` lines 120-132). -/
def cardUrl (c : Card) : Option String :=
  match c.linkHref with
  | some (some h) => if h = "" then none else some (normalizeUrl h)
  | _ => none

/-- Append `u` unless already present: `if full_url not in initiative_urls:
initiative_urls.append(full_url)` (`scraper.py` lines 133-134). -/
def insertUnique (acc : List String) (u : String) : List String :=
  if u ∈ acc then acc else acc ++ [u]

/-- Process one card against the accumulated URL list
(`scraper.py` lines 120-134). -/
def scanCard (acc : List String) (c : Card) : List String :=
  match cardUrl c with
  | some u => insertUnique acc u
  | none => acc

/-- `get_initiative_urls` (`scraper.py` lines 98-158): the pagination walk
is modelled by the list of visited listing pages, each given by its result
cards in page order; the fold is the card loop accumulating normalized,
deduplicated URLs. -/
def get_initiative_urls (pages : List (List Card)) : List String :=
  pages.foldl (fun acc cards => cards.foldl scanCard acc) []

/-- First-occurrence deduplication: the flat-list characterization of the
walker's accumulation. -/
def dedupFirst (l : List String) : List String :=
  l.foldl insertUnique []

/-- All normalized candidate URLs in page order, duplicates kept. -/
def candidateUrls : List (List Card) → List String
  | [] => []
  | cards :: rest => cards.filterMap cardUrl ++ candidateUrls rest

/-- `ConsultationData` (`scraper.py` lines 24-42). -/
structure ConsultationData where
  initiative_id : String
  initiative_name : String
  initiative_url : String
  consultation_url : String
  topic : Option String
  consultation_period : Option String
  total_feedback : Option Nat
  has_summary_report : Bool
  summary_report_url : Option String
  has_contributions_zip : Bool
  contributions_zip_url : Option String
  has_documents_annexed : Bool
  documents_annexed_url : Option String
  scrape_timestamp : String
  scrape_status : String
  error_message : Option String
deriving DecidableEq

/-- The record's initial defaults (`scraper.py` lines 164-181);
`ts` stands for the `datetime.now().isoformat()` timestamp. -/
def initData (url ts : String) : ConsultationData :=
  { initiative_id := ""
    initiative_name := ""
    initiative_url := url
    consultation_url := ""
    topic := none
    consultation_period := none
    total_feedback := none
    has_summary_report := false
    summary_report_url := none
    has_contributions_zip := false
    contributions_zip_url := none
    has_documents_annexed := false
    documents_annexed_url := none
    scrape_timestamp := ts
    scrape_status := "pending"
    error_message := none }

/-- The `except` clause of `scrape_consultation`
(`scraper.py` lines 231-234). -/
def errorize (d : ConsultationData) (e : String) : ConsultationData :=
  { d with scrape_status := "error", error_message := some e }

/-- The match of `re.search(r'/initiatives/(\d+)', url)` anchored at the
head of `cs`: the literal path segment followed by a maximal non-empty
digit run. -/
def idAt (cs : List Char) : Option String :=
  if List.isPrefixOf "/initiatives/".data cs then
    if ((cs.drop 13).takeWhile Char.isDigit).isEmpty then none
    else some (String.mk ((cs.drop 13).takeWhile Char.isDigit))
  else none

/-- Leftmost match search for `re.search(r'/initiatives/(\d+)', url)`. -/
def searchId : List Char → Option String
  | [] => none
  | c :: rest =>
      match idAt (c :: rest) with
      | some s => some s
      | none => searchId rest

/-- `re.search(r'/initiatives/(\d+)', initiative_url)` giving group 1
(`scraper.py` lines 185-187). -/
def extractInitiativeId (url : String) : Option String :=
  searchId url.data

/-- The `base` variable of the consultation-URL construction
(`scraper.py` lines 206-208): drop trailing slashes, then strip a trailing
`_en`. -/
def consultBase (url : String) : String :=
  if strEndsWith (rstripSlash url) "_en" then dropLast3 (rstripSlash url)
  else rstripSlash url

/-- Consultation-URL construction (`scraper.py` lines 206-209):
`f"{base}/public-consultation_en"`. -/
def constructConsultationLink (url : String) : String :=
  consultBase url ++ "/public-consultation_en"

/-- Behaviour of `wait_for_page_load` internals (`scraper.py` lines 60-66):
result of the networkidle wait and of the domcontentloaded fallback. -/
structure WaitB where
  networkIdle : Except String Unit
  dom : Except String Unit

/-- `wait_for_page_load` (`scraper.py` lines 60-66): a networkidle failure
is caught and the domcontentloaded wait decides the outcome. -/
def wait_for_page_load (w : WaitB) : Except String Unit :=
  match w.networkIdle with
  | .ok _ => .ok ()
  | .error _ => w.dom

/-- One `ecl-file` entry as the extractor observes it
(`scraper.py` lines 305-340): the title read (an exception here aborts the
whole outcome block), the download-link query (same), the click outcome
(an exception here is caught per entry), and the download-endpoint
candidate request URLs observed during this entry's click window. -/
structure FileEntry where
  titleRead : Except String (Option String)
  linkFound : Except String Bool
  clickRes : Except String Unit
  requests : List String

/-- `handle_request` (`scraper.py` lines 299-301) acting on the list of
`captured_urls.values()` in dict insertion order: a URL matching the
download-endpoint pattern is inserted; re-assigning an existing dict key
leaves the order (and identical value) unchanged. -/
def captureRequest (captured : List String) (url : String) : List String :=
  if containsSub url "/api/download/" then insertUnique captured url else captured

/-- State of the capture map after a sequence of observed requests. -/
def capturedAfter (reqs : List String) : List String :=
  reqs.foldl captureRequest []

/-- The URL the code attributes to an activation:
`list(captured_urls.values())[-1]` guarded by `if captured_urls:`
(`scraper.py` lines 320-321). -/
def attributedUrl (reqs : List String) : Option String :=
  (capturedAfter reqs).getLast?

/-- Modelled from the spec's words ("the URL of the latest matching request
observed"): the last request matching the download-endpoint pattern. -/
def latestMatchingRequest (reqs : List String) : Option String :=
  (reqs.filter (fun u => containsSub u "/api/download/")).getLast?

/-- Classification of one file entry (`scraper.py` lines 323-337):
priority over the lowercased title and the observed section headings. -/
def classify (hs hc : Bool) (titleLower latest : String) (d : ConsultationData) :
    ConsultationData :=
  if hc && containsSub titleLower "contribution" && !containsSub titleLower "annex" then
    { d with has_contributions_zip := true, contributions_zip_url := some latest }
  else if hc && containsSub titleLower "document" && containsSub titleLower "annex" then
    { d with has_documents_annexed := true, documents_annexed_url := some latest }
  else if hs then
    { d with has_summary_report := true, summary_report_url := some latest }
  else
    d

/-- The file-entry loop (`scraper.py` lines 305-340).  `captured` is the
capture map carried across entries (it is created once per initiative and
never cleared between entries).  A title-read or link-query exception
aborts the whole outcome block (caught at `scraper.py` line 345), keeping
the record as mutated so far; a click exception skips just that entry. -/
def processFiles (hs hc : Bool) :
    List FileEntry → List String → ConsultationData → ConsultationData
  | [], _, d => d
  | f :: rest, captured, d =>
      match f.titleRead with
      | .error _ => d
      | .ok none => processFiles hs hc rest captured d
      | .ok (some rawTitle) =>
          let titleLower := strLower (strStrip rawTitle)
          match f.linkFound with
          | .error _ => d
          | .ok false => processFiles hs hc rest captured d
          | .ok true =>
              match f.clickRes with
              | .error _ => processFiles hs hc rest captured d
              | .ok _ =>
                  let captured := f.requests.foldl captureRequest captured
                  if captured.isEmpty then
                    processFiles hs hc rest captured d
                  else
                    processFiles hs hc rest captured
                      (classify hs hc titleLower (captured.getLastD "") d)

/-- Behaviour of the consultation-detail page as seen by
`extract_consultation_data`.  The topic scan (`scraper.py` lines 242-255),
period read (lines 257-263) and feedback scan (lines 265-278) are
abstracted as the value each scan yields (or the exception its block
catches); the section headings and file entries drive the outcome block
(lines 280-346). -/
structure ExtractBehaviour where
  topicFound : Except String (Option String)
  periodFound : Except String (Option String)
  feedbackFound : Except String (Option Nat)
  h3Texts : Except String (List String)
  files : Except String (List FileEntry)

/-- Topic block (`scraper.py` lines 242-255): the scanned definition text
is stored stripped when truthy; any exception in the block is caught. -/
def applyTopic (r : Except String (Option String)) (d : ConsultationData) :
    ConsultationData :=
  match r with
  | .ok (some t) => if t = "" then d else { d with topic := some (strStrip t) }
  | _ => d

/-- Period block (`scraper.py` lines 257-263). -/
def applyPeriod (r : Except String (Option String)) (d : ConsultationData) :
    ConsultationData :=
  match r with
  | .ok (some t) => { d with consultation_period := some (strStrip t) }
  | _ => d

/-- Feedback block (`scraper.py` lines 265-278): the parsed count, if the
scan found one. -/
def applyFeedback (r : Except String (Option Nat)) (d : ConsultationData) :
    ConsultationData :=
  match r with
  | .ok (some n) => { d with total_feedback := some n }
  | _ => d

/-- Outcome block (`scraper.py` lines 280-346): read the `h3` section
headings, then walk the file entries with an initially empty capture map.
An exception while reading headings or querying files is caught at line
345 and leaves the record as it stands. -/
def outcomeBlock (h3res : Except String (List String))
    (filesRes : Except String (List FileEntry)) (d : ConsultationData) :
    ConsultationData :=
  match h3res with
  | .error _ => d
  | .ok texts =>
      let hs := (texts.map strStrip).contains "Summary report"
      let hc := (texts.map strStrip).contains "Contributions to the consultation"
      match filesRes with
      | .error _ => d
      | .ok fs => processFiles hs hc fs [] d

/-- `extract_consultation_data` (`scraper.py` lines 238-346): the four
blocks in source order; none of them raises to the caller. -/
def extract_consultation_data (eb : ExtractBehaviour) (d : ConsultationData) :
    ConsultationData :=
  outcomeBlock eb.h3Texts eb.files
    (applyFeedback eb.feedbackFound (applyPeriod eb.periodFound (applyTopic eb.topicFound d)))

/-- Behaviour of the page capability for one initiative's extraction:
overview navigation and settle wait (`scraper.py` lines 191-192), the
heading read for the initiative name (lines 195-200, exceptions caught),
consultation-page navigation and wait (lines 223-224), and the
consultation-page content. -/
structure PageBehaviour where
  gotoOverview : Except String Unit
  waitOverview : WaitB
  readName : Except String (Option String)
  gotoConsult : Except String Unit
  waitConsult : WaitB
  extract : ExtractBehaviour

/-- Record after the initiative-id extraction (`scraper.py` lines 185-187). -/
def afterId (url ts : String) : ConsultationData :=
  match extractInitiativeId url with
  | some i => { initData url ts with initiative_id := i }
  | none => initData url ts

/-- Name read (`scraper.py` lines 195-200): stored stripped when the
heading element exists; exceptions are caught and leave the field. -/
def withName (b : PageBehaviour) (d : ConsultationData) : ConsultationData :=
  match b.readName with
  | .ok (some t) => { d with initiative_name := strStrip t }
  | _ => d

/-- The construction-failure finalization (`scraper.py` lines 214-217). -/
def linkFailureRecord (d : ConsultationData) : ConsultationData :=
  { d with scrape_status := "error",
           error_message := some "Could not find public consultation link" }

/-- Stage 3 (`scraper.py` lines 219-229): store the consultation URL,
navigate, wait, extract, mark success; navigation and wait exceptions are
caught by the enclosing handler (lines 231-234). -/
def stage3 (b : PageBehaviour) (d : ConsultationData) (link : String) :
    ConsultationData :=
  let d := { d with consultation_url := link }
  match b.gotoConsult with
  | .error e => errorize d e
  | .ok _ =>
      match wait_for_page_load b.waitConsult with
      | .error e => errorize d e
      | .ok _ => { extract_consultation_data b.extract d with scrape_status := "success" }

/-- The continuation of `scrape_consultation` from the computed
`consultation_link` (`scraper.py` lines 214-229): the Python falsy check
`if not consultation_link` covers both `None` and the empty string. -/
def scrapeWithLink (b : PageBehaviour) (d : ConsultationData)
    (link : Option String) : ConsultationData :=
  if link.getD "" = "" then linkFailureRecord d
  else stage3 b d (link.getD "")

/-- `scrape_consultation` (`scraper.py` lines 160-236).  The id extraction
and URL construction are pure and cannot raise; navigation and wait
failures are caught by the handler at lines 231-234. -/
def scrape_consultation (b : PageBehaviour) (initiative_url ts : String) :
    ConsultationData :=
  let d := afterId initiative_url ts
  match b.gotoOverview with
  | .error e => errorize d e
  | .ok _ =>
      match wait_for_page_load b.waitOverview with
      | .error e => errorize d e
      | .ok _ =>
          scrapeWithLink b (withName b d)
            (some (constructConsultationLink initiative_url))

/-- The exception messages a behaviour can surface through the
`scrape_consultation` handler. -/
def exMsg : Except String Unit → List String
  | .error e => [e]
  | .ok _ => []

/-- All exception messages of one page behaviour's fallible operations. -/
def behErrMsgs (b : PageBehaviour) : List String :=
  exMsg b.gotoOverview ++ exMsg b.waitOverview.networkIdle ++ exMsg b.waitOverview.dom ++
    exMsg b.gotoConsult ++ exMsg b.waitConsult.networkIdle ++ exMsg b.waitConsult.dom

/-- The orchestrator loop (`scraper.py` lines 83-89): `k` is the running
index; each initiative is scraped against the page behaviour its
navigation produces and the record appended. -/
def scrapeLoop (beh : Nat → PageBehaviour) (ts : Nat → String) :
    Nat → List String → List ConsultationData → List ConsultationData
  | _, [], results => results
  | k, url :: rest, results =>
      scrapeLoop beh ts (k + 1) rest
        (results ++ [scrape_consultation (beh k) url (ts k)])

/-- `scrape_all_consultations` (`scraper.py` lines 68-96): acquire the URL
list once, then scrape each URL in order, appending every record.
`get_initiative_urls` and `scrape_consultation` are total, so the loop
runs to completion. -/
def scrape_all_consultations (pages : List (List Card))
    (beh : Nat → PageBehaviour) (ts : Nat → String) : List ConsultationData :=
  scrapeLoop beh ts 0 (get_initiative_urls pages) []

/-- The records the loop appends, with the index threaded from `k`. -/
def mapFrom (beh : Nat → PageBehaviour) (ts : Nat → String) :
    Nat → List String → List ConsultationData
  | _, [] => []
  | k, url :: rest =>
      scrape_consultation (beh k) url (ts k) :: mapFrom beh ts (k + 1) rest

/-- Membership in the walker's dedup-insert. -/
theorem mem_insertUnique (acc : List String) (v u : String) :
    u ∈ insertUnique acc v ↔ u ∈ acc ∨ u = v := by
  unfold insertUnique
  by_cases h : v ∈ acc
  · simp only [if_pos h]
    exact ⟨Or.inl, fun h' => h'.elim id (fun e => e ▸ h)⟩
  · simp [if_neg h]

/-- Dedup-insert preserves `Nodup`. -/
theorem nodup_insertUnique (acc : List String) (v : String) (h : acc.Nodup) :
    (insertUnique acc v).Nodup := by
  unfold insertUnique
  by_cases hv : v ∈ acc
  · simpa [if_pos hv] using h
  · simp [if_neg hv, List.nodup_append, h, hv]

/-- Membership through a fold of dedup-inserts. -/
theorem foldl_insertUnique_mem (l : List String) :
    ∀ acc u, u ∈ l.foldl insertUnique acc ↔ u ∈ acc ∨ u ∈ l := by
  induction l with
  | nil => simp
  | cons x xs ih =>
      intro acc u
      rw [List.foldl_cons, ih, mem_insertUnique]
      simp only [List.mem_cons]
      tauto

/-- A fold of dedup-inserts keeps the accumulator duplicate-free. -/
theorem foldl_insertUnique_nodup (l : List String) :
    ∀ acc, acc.Nodup → (l.foldl insertUnique acc).Nodup := by
  induction l with
  | nil => intro acc h; simpa using h
  | cons x xs ih => intro acc h; exact ih _ (nodup_insertUnique _ _ h)

/-- A fold of dedup-inserts appends a subsequence of the folded list. -/
theorem foldl_insertUnique_sublist (l : List String) :
    ∀ acc, ∃ l', l.foldl insertUnique acc = acc ++ l' ∧ l'.Sublist l := by
  induction l with
  | nil => intro acc; exact ⟨[], by simp, List.Sublist.refl _⟩
  | cons x xs ih =>
      intro acc
      by_cases hx : x ∈ acc
      · obtain ⟨l', he, hs⟩ := ih acc
        refine ⟨l', ?_, hs.cons x⟩
        rw [List.foldl_cons]
        rw [show insertUnique acc x = acc from by simp [insertUnique, if_pos hx]]
        exact he
      · obtain ⟨l', he, hs⟩ := ih (acc ++ [x])
        refine ⟨x :: l', ?_, hs.cons₂ x⟩
        rw [List.foldl_cons]
        rw [show insertUnique acc x = acc ++ [x] from by simp [insertUnique, if_neg hx]]
        rw [he, List.append_assoc]
        rfl

/-- Membership in the first-occurrence dedup. -/
theorem mem_dedupFirst (l : List String) (u : String) :
    u ∈ dedupFirst l ↔ u ∈ l := by
  simpa [dedupFirst] using foldl_insertUnique_mem l [] u

/-- First-occurrence dedup is duplicate-free. -/
theorem nodup_dedupFirst (l : List String) : (dedupFirst l).Nodup :=
  foldl_insertUnique_nodup l [] List.nodup_nil

/-- First-occurrence dedup is a subsequence (order preserved). -/
theorem sublist_dedupFirst (l : List String) : (dedupFirst l).Sublist l := by
  obtain ⟨l', he, hs⟩ := foldl_insertUnique_sublist l []
  rw [dedupFirst, he]
  simpa using hs

/-- A later duplicate is dropped; a new URL is appended (first occurrence
wins). -/
theorem dedupFirst_append_singleton (l : List String) (a : String) :
    dedupFirst (l ++ [a]) = if a ∈ l then dedupFirst l else dedupFirst l ++ [a] := by
  have h1 : dedupFirst (l ++ [a]) = insertUnique (dedupFirst l) a := by
    simp [dedupFirst, List.foldl_append]
  rw [h1]
  unfold insertUnique
  by_cases h : a ∈ l
  · rw [if_pos ((mem_dedupFirst l a).mpr h), if_pos h]
  · rw [if_neg (fun hc => h ((mem_dedupFirst l a).mp hc)), if_neg h]

/-- The card loop is the dedup-insert fold of the cards' normalized URLs. -/
theorem foldl_scanCard_eq (cards : List Card) :
    ∀ acc, cards.foldl scanCard acc = (cards.filterMap cardUrl).foldl insertUnique acc := by
  induction cards with
  | nil => simp
  | cons c cs ih =>
      intro acc
      cases h : cardUrl c with
      | none => simp [List.filterMap_cons, h, scanCard, ih]
      | some u => simp [List.filterMap_cons, h, scanCard, ih]

/-- The walker equals the first-occurrence dedup of all normalized
candidate URLs in page order. -/
theorem get_initiative_urls_eq (pages : List (List Card)) :
    get_initiative_urls pages = dedupFirst (candidateUrls pages) := by
  suffices h : ∀ acc, pages.foldl (fun acc cards => cards.foldl scanCard acc) acc
      = (candidateUrls pages).foldl insertUnique acc by
    simpa [get_initiative_urls, dedupFirst] using h []
  induction pages with
  | nil => intro acc; simp [candidateUrls]
  | cons cs rest ih =>
      intro acc
      rw [List.foldl_cons, ih, foldl_scanCard_eq]
      simp [candidateUrls, List.foldl_append]

/-- The artifact invariant: each artifact URL is set exactly when its
presence flag is true. -/
def artifactInv (d : ConsultationData) : Prop :=
  d.has_summary_report = d.summary_report_url.isSome
  ∧ d.has_contributions_zip = d.contributions_zip_url.isSome
  ∧ d.has_documents_annexed = d.documents_annexed_url.isSome

/-- Classification always sets a presence flag and its URL together. -/
theorem artifactInv_classify {d : ConsultationData} (hs hc : Bool)
    (t l : String) (h : artifactInv d) : artifactInv (classify hs hc t l d) := by
  unfold classify
  split_ifs <;> simp_all [artifactInv]

/-- Classification leaves identity, status and error fields untouched. -/
theorem classify_frame (hs hc : Bool) (t l : String) (d : ConsultationData) :
    (classify hs hc t l d).initiative_id = d.initiative_id
    ∧ (classify hs hc t l d).initiative_url = d.initiative_url
    ∧ (classify hs hc t l d).consultation_url = d.consultation_url
    ∧ (classify hs hc t l d).scrape_status = d.scrape_status
    ∧ (classify hs hc t l d).error_message = d.error_message := by
  unfold classify
  split_ifs <;> simp

/-- The file loop preserves the artifact invariant. -/
theorem artifactInv_processFiles (hs hc : Bool) :
    ∀ (fs : List FileEntry) (captured : List String) (d : ConsultationData),
      artifactInv d → artifactInv (processFiles hs hc fs captured d) := by
  intro fs
  induction fs with
  | nil => intro captured d h; simpa [processFiles] using h
  | cons f rest ih =>
      intro captured d h
      unfold processFiles
      cases f.titleRead with
      | error e => simpa using h
      | ok t =>
          cases t with
          | none => simpa using ih _ _ h
          | some rawTitle =>
              cases f.linkFound with
              | error e => simpa using h
              | ok lb =>
                  cases lb with
                  | false => simpa using ih _ _ h
                  | true =>
                      cases f.clickRes with
                      | error e => simpa using ih _ _ h
                      | ok u =>
                          simp only []
                          split
                          · exact ih _ _ h
                          · exact ih _ _ (artifactInv_classify _ _ _ _ h)

/-- The file loop leaves identity, status and error fields untouched. -/
theorem processFiles_frame (hs hc : Bool) :
    ∀ (fs : List FileEntry) (captured : List String) (d : ConsultationData),
      (processFiles hs hc fs captured d).initiative_id = d.initiative_id
      ∧ (processFiles hs hc fs captured d).initiative_url = d.initiative_url
      ∧ (processFiles hs hc fs captured d).consultation_url = d.consultation_url
      ∧ (processFiles hs hc fs captured d).scrape_status = d.scrape_status
      ∧ (processFiles hs hc fs captured d).error_message = d.error_message := by
  intro fs
  induction fs with
  | nil => intro captured d; simp [processFiles]
  | cons f rest ih =>
      intro captured d
      unfold processFiles
      cases f.titleRead with
      | error e => simp
      | ok t =>
          cases t with
          | none => simpa using ih _ _
          | some rawTitle =>
              cases f.linkFound with
              | error e => simp
              | ok lb =>
                  cases lb with
                  | false => simpa using ih _ _
                  | true =>
                      cases f.clickRes with
                      | error e => simpa using ih _ _
                      | ok u =>
                          simp only []
                          split
                          · exact ih _ _
                          · obtain ⟨h1, h2, h3, h4, h5⟩ := ih (f.requests.foldl captureRequest captured)
                              (classify hs hc (strLower (strStrip rawTitle))
                                ((f.requests.foldl captureRequest captured).getLastD "") d)
                            obtain ⟨g1, g2, g3, g4, g5⟩ := classify_frame hs hc
                              (strLower (strStrip rawTitle))
                              ((f.requests.foldl captureRequest captured).getLastD "") d
                            exact ⟨h1.trans g1, h2.trans g2, h3.trans g3, h4.trans g4, h5.trans g5⟩

/-- The topic block only (possibly) sets `topic`. -/
theorem applyTopic_eq (r : Except String (Option String)) (d : ConsultationData) :
    ∃ t, applyTopic r d = { d with topic := t } := by
  unfold applyTopic
  cases r with
  | error e => exact ⟨d.topic, rfl⟩
  | ok v =>
      cases v with
      | none => exact ⟨d.topic, rfl⟩
      | some t =>
          by_cases h : t = ""
          · exact ⟨d.topic, by simp [h]⟩
          · exact ⟨some (strStrip t), by simp [h]⟩

/-- The period block only (possibly) sets `consultation_period`. -/
theorem applyPeriod_eq (r : Except String (Option String)) (d : ConsultationData) :
    ∃ t, applyPeriod r d = { d with consultation_period := t } := by
  unfold applyPeriod
  cases r with
  | error e => exact ⟨d.consultation_period, rfl⟩
  | ok v =>
      cases v with
      | none => exact ⟨d.consultation_period, rfl⟩
      | some t => exact ⟨some (strStrip t), rfl⟩

/-- The feedback block only (possibly) sets `total_feedback`. -/
theorem applyFeedback_eq (r : Except String (Option Nat)) (d : ConsultationData) :
    ∃ t, applyFeedback r d = { d with total_feedback := t } := by
  unfold applyFeedback
  cases r with
  | error e => exact ⟨d.total_feedback, rfl⟩
  | ok v =>
      cases v with
      | none => exact ⟨d.total_feedback, rfl⟩
      | some n => exact ⟨some n, rfl⟩

/-- The outcome block preserves the artifact invariant. -/
theorem artifactInv_outcomeBlock (h3res : Except String (List String))
    (filesRes : Except String (List FileEntry)) (d : ConsultationData)
    (h : artifactInv d) : artifactInv (outcomeBlock h3res filesRes d) := by
  unfold outcomeBlock
  cases h3res with
  | error e => simpa using h
  | ok texts =>
      cases filesRes with
      | error e => simpa using h
      | ok fs => exact artifactInv_processFiles _ _ _ _ _ h

/-- The outcome block leaves identity, status and error fields untouched. -/
theorem outcomeBlock_frame (h3res : Except String (List String))
    (filesRes : Except String (List FileEntry)) (d : ConsultationData) :
    (outcomeBlock h3res filesRes d).initiative_id = d.initiative_id
    ∧ (outcomeBlock h3res filesRes d).initiative_url = d.initiative_url
    ∧ (outcomeBlock h3res filesRes d).consultation_url = d.consultation_url
    ∧ (outcomeBlock h3res filesRes d).scrape_status = d.scrape_status
    ∧ (outcomeBlock h3res filesRes d).error_message = d.error_message := by
  unfold outcomeBlock
  cases h3res with
  | error e => simp
  | ok texts =>
      cases filesRes with
      | error e => simp
      | ok fs => exact processFiles_frame _ _ _ _ _

/-- Field extraction preserves the artifact invariant. -/
theorem artifactInv_extract (eb : ExtractBehaviour) (d : ConsultationData)
    (h : artifactInv d) : artifactInv (extract_consultation_data eb d) := by
  unfold extract_consultation_data
  obtain ⟨t1, h1⟩ := applyTopic_eq eb.topicFound d
  rw [h1]
  obtain ⟨t2, h2⟩ := applyPeriod_eq eb.periodFound { d with topic := t1 }
  rw [h2]
  obtain ⟨t3, h3⟩ := applyFeedback_eq eb.feedbackFound
    { d with topic := t1, consultation_period := t2 }
  rw [h3]
  apply artifactInv_outcomeBlock
  simpa [artifactInv] using h

/-- Field extraction leaves identity, status and error fields untouched. -/
theorem extract_frame (eb : ExtractBehaviour) (d : ConsultationData) :
    (extract_consultation_data eb d).initiative_id = d.initiative_id
    ∧ (extract_consultation_data eb d).initiative_url = d.initiative_url
    ∧ (extract_consultation_data eb d).consultation_url = d.consultation_url
    ∧ (extract_consultation_data eb d).scrape_status = d.scrape_status
    ∧ (extract_consultation_data eb d).error_message = d.error_message := by
  unfold extract_consultation_data
  obtain ⟨t1, h1⟩ := applyTopic_eq eb.topicFound d
  rw [h1]
  obtain ⟨t2, h2⟩ := applyPeriod_eq eb.periodFound { d with topic := t1 }
  rw [h2]
  obtain ⟨t3, h3⟩ := applyFeedback_eq eb.feedbackFound
    { d with topic := t1, consultation_period := t2 }
  rw [h3]
  simpa using outcomeBlock_frame eb.h3Texts eb.files
    { d with topic := t1, consultation_period := t2, total_feedback := t3 }

/-- The constructed consultation URL always carries the fixed non-empty
suffix, so it is never empty. -/
theorem constructConsultationLink_ne (url : String) :
    constructConsultationLink url ≠ "" := by
  intro h
  unfold constructConsultationLink at h
  have h2 := congrArg String.data h
  rw [String.data_append] at h2
  rcases List.append_eq_nil.mp h2 with ⟨_, h4⟩
  exact absurd h4 (by decide)

/-- A surfaced wait failure comes from one of the two underlying waits. -/
theorem wait_error_from {w : WaitB} {e : String}
    (h : wait_for_page_load w = .error e) :
    w.networkIdle = .error e ∨ w.dom = .error e := by
  unfold wait_for_page_load at h
  cases hni : w.networkIdle with
  | ok u => rw [hni] at h; cases h
  | error e1 => rw [hni] at h; exact Or.inr h

/-- Case analysis of stage 3: either a navigation/wait failure surfaces
one of the behaviour's exception messages, or extraction runs and the
record is finalized as success. -/
theorem stage3_cases (b : PageBehaviour) (d : ConsultationData) (link : String) :
    (∃ e, e ∈ behErrMsgs b
        ∧ stage3 b d link = errorize { d with consultation_url := link } e)
    ∨ stage3 b d link =
        { extract_consultation_data b.extract { d with consultation_url := link } with
          scrape_status := "success" } := by
  unfold stage3
  cases hgc : b.gotoConsult with
  | error e => exact Or.inl ⟨e, by simp [behErrMsgs, exMsg, hgc], rfl⟩
  | ok u =>
      cases hw : wait_for_page_load b.waitConsult with
      | error e =>
          refine Or.inl ⟨e, ?_, rfl⟩
          rcases wait_error_from hw with h | h <;> simp [behErrMsgs, exMsg, h]
      | ok v => exact Or.inr rfl

/-- Case analysis of `scrape_consultation`: a stage-1 failure finalizes the
record right after the id extraction; a stage-3 failure finalizes it after
the name read and URL construction; otherwise extraction runs and the
record is a success. -/
theorem scrape_consultation_cases (b : PageBehaviour) (url ts : String) :
    (∃ e, e ∈ behErrMsgs b
        ∧ scrape_consultation b url ts = errorize (afterId url ts) e)
    ∨ (∃ e, e ∈ behErrMsgs b
        ∧ scrape_consultation b url ts =
            errorize { withName b (afterId url ts) with
                       consultation_url := constructConsultationLink url } e)
    ∨ scrape_consultation b url ts =
        { extract_consultation_data b.extract
            { withName b (afterId url ts) with
              consultation_url := constructConsultationLink url } with
          scrape_status := "success" } := by
  unfold scrape_consultation
  cases hgo : b.gotoOverview with
  | error e => exact Or.inl ⟨e, by simp [behErrMsgs, exMsg, hgo], rfl⟩
  | ok u =>
      cases hw : wait_for_page_load b.waitOverview with
      | error e =>
          refine Or.inl ⟨e, ?_, rfl⟩
          rcases wait_error_from hw with h | h <;> simp [behErrMsgs, exMsg, h]
      | ok v =>
          have hne : constructConsultationLink url ≠ "" :=
            constructConsultationLink_ne url
          simp only [scrapeWithLink, Option.getD_some, if_neg hne]
          rcases stage3_cases b (withName b (afterId url ts))
              (constructConsultationLink url) with ⟨e, hm, he⟩ | he
          · exact Or.inr (Or.inl ⟨e, hm, he⟩)
          · exact Or.inr (Or.inr he)

/-- The record after id extraction is the defaults with the extracted id
(empty when the URL has no numeric initiatives segment). -/
theorem afterId_eq (url ts : String) :
    afterId url ts =
      { initData url ts with initiative_id := (extractInitiativeId url).getD "" } := by
  unfold afterId
  cases h : extractInitiativeId url <;> simp [initData]

/-- The name read only (possibly) sets `initiative_name`. -/
theorem withName_eq (b : PageBehaviour) (d : ConsultationData) :
    ∃ n, withName b d = { d with initiative_name := n } := by
  unfold withName
  cases b.readName with
  | error e => exact ⟨d.initiative_name, rfl⟩
  | ok v =>
      cases v with
      | none => exact ⟨d.initiative_name, rfl⟩
      | some t => exact ⟨strStrip t, rfl⟩

/-- The name read never changes the initiative id. -/
theorem withName_keeps_id (b : PageBehaviour) (d : ConsultationData) :
    (withName b d).initiative_id = d.initiative_id := by
  obtain ⟨n, hn⟩ := withName_eq b d
  rw [hn]

/-- The name read never changes the initiative URL. -/
theorem withName_keeps_url (b : PageBehaviour) (d : ConsultationData) :
    (withName b d).initiative_url = d.initiative_url := by
  obtain ⟨n, hn⟩ := withName_eq b d
  rw [hn]

/-- The name read never changes the error message. -/
theorem withName_keeps_msg (b : PageBehaviour) (d : ConsultationData) :
    (withName b d).error_message = d.error_message := by
  obtain ⟨n, hn⟩ := withName_eq b d
  rw [hn]

/-- An anchored regex match yields a non-empty digit group. -/
theorem idAt_ne {cs : List Char} {s : String} (h : idAt cs = some s) : s ≠ "" := by
  unfold idAt at h
  split_ifs at h with h1 h2
  · injection h with h3
    subst h3
    intro he
    apply h2
    have hd : ((cs.drop 13).takeWhile Char.isDigit) = [] := by
      simpa using congrArg String.data he
    simp [hd]

/-- A leftmost regex match yields a non-empty digit group. -/
theorem searchId_ne : ∀ (cs : List Char) (s : String), searchId cs = some s → s ≠ "" := by
  intro cs
  induction cs with
  | nil => intro s h; cases h
  | cons c rest ih =>
      intro s h
      unfold searchId at h
      cases hi : idAt (c :: rest) with
      | some t =>
          rw [hi] at h
          injection h with h2
          exact h2 ▸ idAt_ne hi
      | none =>
          rw [hi] at h
          exact ih s h

/-- A successfully extracted initiative id is non-empty. -/
theorem extractInitiativeId_ne {url : String} {i : String}
    (h : extractInitiativeId url = some i) : i ≠ "" :=
  searchId_ne url.data i h

/-- The capture map fold is the dedup-insert fold of the pattern-matching
requests. -/
theorem foldl_captureRequest_eq (reqs : List String) :
    ∀ acc, reqs.foldl captureRequest acc =
      (reqs.filter (fun u => containsSub u "/api/download/")).foldl insertUnique acc := by
  induction reqs with
  | nil => simp
  | cons r rest ih =>
      intro acc
      by_cases h : containsSub r "/api/download/"
      · simp [List.filter_cons, h, captureRequest, ih]
      · simp [List.filter_cons, h, captureRequest, ih]

/-- Every record returned by the extractor is a success or an error with a
message; it is never left pending and the call never fails outward. -/
theorem scrape_status_cases (b : PageBehaviour) (url ts : String) :
    (scrape_consultation b url ts).scrape_status = "success"
    ∨ ((scrape_consultation b url ts).scrape_status = "error"
        ∧ (scrape_consultation b url ts).error_message.isSome) := by
  rcases scrape_consultation_cases b url ts with ⟨e, _, he⟩ | ⟨e, _, he⟩ | he
  · rw [he]; exact Or.inr ⟨rfl, rfl⟩
  · rw [he]; exact Or.inr ⟨rfl, rfl⟩
  · rw [he]; exact Or.inl rfl

/-- The orchestrator loop appends exactly the per-URL records. -/
theorem scrapeLoop_eq (beh : Nat → PageBehaviour) (ts : Nat → String) :
    ∀ (urls : List String) (k : Nat) (results : List ConsultationData),
      scrapeLoop beh ts k urls results = results ++ mapFrom beh ts k urls := by
  intro urls
  induction urls with
  | nil => intro k results; simp [scrapeLoop, mapFrom]
  | cons url rest ih =>
      intro k results
      simp only [scrapeLoop, mapFrom]
      rw [ih]
      simp

/-- One record per URL. -/
theorem mapFrom_length (beh : Nat → PageBehaviour) (ts : Nat → String) :
    ∀ (urls : List String) (k : Nat), (mapFrom beh ts k urls).length = urls.length := by
  intro urls
  induction urls with
  | nil => intro k; rfl
  | cons url rest ih => intro k; simp [mapFrom, ih]

/-- The j-th record is the scrape of the j-th URL. -/
theorem mapFrom_get? (beh : Nat → PageBehaviour) (ts : Nat → String) :
    ∀ (urls : List String) (k j : Nat),
      (mapFrom beh ts k urls).get? j =
        (urls.get? j).map (fun url => scrape_consultation (beh (k + j)) url (ts (k + j))) := by
  intro urls
  induction urls with
  | nil => intro k j; simp [mapFrom]
  | cons url rest ih =>
      intro k j
      cases j with
      | zero => simp [mapFrom]
      | succ j' =>
          have hkj : k + (j' + 1) = (k + 1) + j' := by omega
          simp only [mapFrom, List.get?_cons_succ, hkj]
          exact ih (k + 1) j'

/-- Every appended record is some URL's scrape. -/
theorem mapFrom_mem (beh : Nat → PageBehaviour) (ts : Nat → String) :
    ∀ (urls : List String) (k : Nat) (r : ConsultationData),
      r ∈ mapFrom beh ts k urls →
      ∃ j url, r = scrape_consultation (beh j) url (ts j) := by
  intro urls
  induction urls with
  | nil => intro k r h; cases h
  | cons url rest ih =>
      intro k r h
      rcases List.mem_cons.mp h with h | h
      · exact ⟨k, url, h⟩
      · exact ih (k + 1) r h

/-- Field extraction never changes the initiative id. -/
theorem extract_keeps_id (eb : ExtractBehaviour) (d : ConsultationData) :
    (extract_consultation_data eb d).initiative_id = d.initiative_id :=
  (extract_frame eb d).1

/-- Field extraction never changes the initiative URL. -/
theorem extract_keeps_url (eb : ExtractBehaviour) (d : ConsultationData) :
    (extract_consultation_data eb d).initiative_url = d.initiative_url :=
  (extract_frame eb d).2.1

/-- Field extraction never changes the consultation URL. -/
theorem extract_keeps_curl (eb : ExtractBehaviour) (d : ConsultationData) :
    (extract_consultation_data eb d).consultation_url = d.consultation_url :=
  (extract_frame eb d).2.2.1

/-- Field extraction never changes the status. -/
theorem extract_keeps_status (eb : ExtractBehaviour) (d : ConsultationData) :
    (extract_consultation_data eb d).scrape_status = d.scrape_status :=
  (extract_frame eb d).2.2.2.1

/-- Field extraction never changes the error message. -/
theorem extract_keeps_msg (eb : ExtractBehaviour) (d : ConsultationData) :
    (extract_consultation_data eb d).error_message = d.error_message :=
  (extract_frame eb d).2.2.2.2

/-- A wait behaviour where both waits succeed. -/
def okWait : WaitB :=
  { networkIdle := .ok (), dom := .ok () }

/-- A consultation page with no topic, period, feedback, headings or
files. -/
def emptyExtract : ExtractBehaviour :=
  { topicFound := .ok none, periodFound := .ok none, feedbackFound := .ok none,
    h3Texts := .ok [], files := .ok [] }

/-- A page behaviour where every operation succeeds. -/
def okBeh : PageBehaviour :=
  { gotoOverview := .ok (), waitOverview := okWait, readName := .ok none,
    gotoConsult := .ok (), waitConsult := okWait, extract := emptyExtract }

/-- A page behaviour whose overview navigation fails. -/
def badBeh : PageBehaviour :=
  { okBeh with gotoOverview := .error "net down" }

/-- C1: a record with `scrapeStatus = error` has its error message set and
every descriptive and artifact field (everything other than the
identity and provenance fields) still at its initial default value:
failures can only occur before field extraction runs, so no partial
non-identity data survives into an error record. -/
theorem spec_c1 (b : PageBehaviour) (url ts : String)
    (h : (scrape_consultation b url ts).scrape_status = "error") :
    (scrape_consultation b url ts).error_message.isSome
    ∧ (scrape_consultation b url ts).topic = none
    ∧ (scrape_consultation b url ts).consultation_period = none
    ∧ (scrape_consultation b url ts).total_feedback = none
    ∧ (scrape_consultation b url ts).has_summary_report = false
    ∧ (scrape_consultation b url ts).summary_report_url = none
    ∧ (scrape_consultation b url ts).has_contributions_zip = false
    ∧ (scrape_consultation b url ts).contributions_zip_url = none
    ∧ (scrape_consultation b url ts).has_documents_annexed = false
    ∧ (scrape_consultation b url ts).documents_annexed_url = none := by
  rcases scrape_consultation_cases b url ts with ⟨e, _, he⟩ | ⟨e, _, he⟩ | he
  · rw [he, afterId_eq]
    simp [errorize, initData]
  · rw [he]
    obtain ⟨n, hn⟩ := withName_eq b (afterId url ts)
    rw [hn, afterId_eq]
    simp [errorize, initData]
  · rw [he] at h
    exact absurd h (by simp)

/-- Witness for C1 at a failing overview navigation. -/
theorem spec_c1_witness :
    (scrape_consultation badBeh "https://ec.europa.eu/initiatives/1_en" "t").error_message.isSome :=
  (spec_c1 badBeh "https://ec.europa.eu/initiatives/1_en" "t" (by decide)).1

/-- C2: for every behaviour of the page capability, the extractor returns
a record (the embedding is a total function) whose status is success, or
error with the exception captured in the record's error field. -/
theorem spec_c2 (b : PageBehaviour) (url ts : String) :
    (scrape_consultation b url ts).scrape_status = "success"
    ∨ ((scrape_consultation b url ts).scrape_status = "error"
        ∧ (scrape_consultation b url ts).error_message.isSome) :=
  scrape_status_cases b url ts

/-- C3: in every record the extractor produces, each artifact's URL is set
exactly when its presence flag is true. -/
theorem spec_c3 (b : PageBehaviour) (url ts : String) :
    (scrape_consultation b url ts).has_summary_report
        = (scrape_consultation b url ts).summary_report_url.isSome
    ∧ (scrape_consultation b url ts).has_contributions_zip
        = (scrape_consultation b url ts).contributions_zip_url.isSome
    ∧ (scrape_consultation b url ts).has_documents_annexed
        = (scrape_consultation b url ts).documents_annexed_url.isSome := by
  have hbase : artifactInv (afterId url ts) := by
    rw [afterId_eq]
    simp [artifactInv, initData]
  obtain ⟨n, hn⟩ := withName_eq b (afterId url ts)
  rcases scrape_consultation_cases b url ts with ⟨e, _, he⟩ | ⟨e, _, he⟩ | he
  · rw [he]
    exact ⟨by simp [errorize, hbase.1], by simp [errorize, hbase.2.1],
      by simp [errorize, hbase.2.2]⟩
  · rw [he, hn]
    exact ⟨by simp [errorize, hbase.1], by simp [errorize, hbase.2.1],
      by simp [errorize, hbase.2.2]⟩
  · rw [he]
    have h2 : artifactInv (extract_consultation_data b.extract
        { withName b (afterId url ts) with
          consultation_url := constructConsultationLink url }) := by
      apply artifactInv_extract
      rw [hn]
      exact ⟨by simp [hbase.1], by simp [hbase.2.1], by simp [hbase.2.2]⟩
    exact ⟨by simpa using h2.1, by simpa using h2.2.1, by simpa using h2.2.2⟩

/-- The identity fields of every returned record: the initiative URL is
the input URL and the initiative id is the regex extraction (empty when
the regex does not match). -/
theorem scrape_identity (b : PageBehaviour) (url ts : String) :
    (scrape_consultation b url ts).initiative_url = url
    ∧ (scrape_consultation b url ts).initiative_id
        = (extractInitiativeId url).getD "" := by
  obtain ⟨n, hn⟩ := withName_eq b (afterId url ts)
  rcases scrape_consultation_cases b url ts with ⟨e, _, he⟩ | ⟨e, _, he⟩ | he
  · rw [he, afterId_eq]
    simp [errorize, initData]
  · rw [he, hn, afterId_eq]
    simp [errorize, initData]
  · rw [he]
    constructor
    · simp [extract_keeps_url, withName_keeps_url, afterId_eq, initData]
    · simp [extract_keeps_id, withName_keeps_id, afterId_eq, initData]

/-- C4 counterexample: a URL whose `/initiatives/` segment is not followed
by digits yields a success record whose initiative id is empty. -/
theorem spec_c4_cex :
    (scrape_consultation okBeh "https://ec.europa.eu/initiatives/reform" "t").scrape_status
        = "success"
    ∧ (scrape_consultation okBeh "https://ec.europa.eu/initiatives/reform" "t").initiative_id
        = "" := by
  decide

/-- C4 (amended): a success record's initiative URL equals the input URL
(non-empty exactly when the input is), and its initiative id is non-empty
whenever the URL contains `/initiatives/` followed by a digit. -/
theorem spec_c4 (b : PageBehaviour) (url ts : String)
    (hid : extractInitiativeId url ≠ none)
    (_h : (scrape_consultation b url ts).scrape_status = "success") :
    (scrape_consultation b url ts).initiative_url = url
    ∧ (scrape_consultation b url ts).initiative_id ≠ "" := by
  obtain ⟨h1, h2⟩ := scrape_identity b url ts
  refine ⟨h1, ?_⟩
  rw [h2]
  cases hi : extractInitiativeId url with
  | none => exact absurd hi hid
  | some i => simpa using extractInitiativeId_ne hi

/-- Witness for C4 at a URL with a numeric initiatives segment. -/
theorem spec_c4_witness :
    (scrape_consultation okBeh "https://ec.europa.eu/initiatives/123_en" "t").initiative_url
        = "https://ec.europa.eu/initiatives/123_en"
    ∧ (scrape_consultation okBeh "https://ec.europa.eu/initiatives/123_en" "t").initiative_id
        ≠ "" :=
  spec_c4 okBeh "https://ec.europa.eu/initiatives/123_en" "t" (by decide) (by decide)

/-- C5: the consultation URL of every success record is the deterministic
suffix-substitution construction from the overview URL, and the
construction-failure branch finalizes the record as an error with the
descriptive message without touching the page (stage 3 skipped). -/
theorem spec_c5 :
    (∀ (b : PageBehaviour) (url ts : String),
        (scrape_consultation b url ts).scrape_status = "success" →
        (scrape_consultation b url ts).consultation_url = constructConsultationLink url)
    ∧ (∀ (b b' : PageBehaviour) (d : ConsultationData) (link : Option String),
        link.getD "" = "" →
        scrapeWithLink b d link = linkFailureRecord d
        ∧ (linkFailureRecord d).scrape_status = "error"
        ∧ (linkFailureRecord d).error_message
            = some "Could not find public consultation link"
        ∧ scrapeWithLink b d link = scrapeWithLink b' d link) := by
  constructor
  · intro b url ts h
    rcases scrape_consultation_cases b url ts with ⟨e, _, he⟩ | ⟨e, _, he⟩ | he
    · rw [he] at h
      simp [errorize] at h
    · rw [he] at h
      simp [errorize] at h
    · rw [he]
      simp [extract_keeps_curl]
  · intro b b' d link hl
    refine ⟨?_, rfl, rfl, ?_⟩
    · unfold scrapeWithLink
      rw [if_pos hl]
    · unfold scrapeWithLink
      rw [if_pos hl, if_pos hl]

/-- Witness for C5: the constructed URL on a success record, and the
construction-failure branch at an absent link. -/
theorem spec_c5_witness :
    (scrape_consultation okBeh "https://ec.europa.eu/initiatives/123_en" "t").consultation_url
        = constructConsultationLink "https://ec.europa.eu/initiatives/123_en"
    ∧ scrapeWithLink okBeh (initData "u" "t") none = linkFailureRecord (initData "u" "t") :=
  ⟨spec_c5.1 okBeh "https://ec.europa.eu/initiatives/123_en" "t" (by decide),
   (spec_c5.2 okBeh okBeh (initData "u" "t") none (by decide)).1⟩

/-- C10: the constructed consultation link is never empty, so the
construction-failure branch is never taken (extraction always proceeds to
stage 3), and the construction-failure message can only appear in a record
if the page capability itself raised that exact message. -/
theorem spec_c10 :
    (∀ url, constructConsultationLink url ≠ "")
    ∧ (∀ (b : PageBehaviour) (d : ConsultationData) (url : String),
        scrapeWithLink b d (some (constructConsultationLink url))
          = stage3 b d (constructConsultationLink url))
    ∧ (∀ (b : PageBehaviour) (url ts : String),
        "Could not find public consultation link" ∉ behErrMsgs b →
        (scrape_consultation b url ts).error_message
          ≠ some "Could not find public consultation link") := by
  refine ⟨constructConsultationLink_ne, ?_, ?_⟩
  · intro b d url
    have hne := constructConsultationLink_ne url
    simp [scrapeWithLink, Option.getD_some, if_neg hne]
  · intro b url ts hmem hc
    obtain ⟨n, hn⟩ := withName_eq b (afterId url ts)
    rcases scrape_consultation_cases b url ts with ⟨e, hm, he⟩ | ⟨e, hm, he⟩ | he
    · rw [he] at hc
      simp [errorize] at hc
      exact hmem (hc ▸ hm)
    · rw [he] at hc
      simp [errorize] at hc
      exact hmem (hc ▸ hm)
    · rw [he] at hc
      simp [extract_keeps_msg, withName_keeps_msg, afterId_eq, initData] at hc

/-- Witness for C10 at an all-success behaviour. -/
theorem spec_c10_witness :
    (scrape_consultation okBeh "https://x_en" "t").error_message
      ≠ some "Could not find public consultation link" :=
  spec_c10.2.2 okBeh "https://x_en" "t" (by decide)

/-- A file entry whose title names documents, annexes and contributions at
once, offering a download link that triggers one captured request. -/
def mixedTitleEntry : FileEntry :=
  { titleRead := .ok (some "Documents annexed to the contribution"),
    linkFound := .ok true, clickRes := .ok (),
    requests := ["https://ec.europa.eu/api/download/x1"] }

/-- A consultation page with an observed contributions section and the
mixed-title file entry. -/
def mixedTitlePage : ExtractBehaviour :=
  { topicFound := .ok none, periodFound := .ok none, feedbackFound := .ok none,
    h3Texts := .ok ["Contributions to the consultation"],
    files := .ok [mixedTitleEntry] }

/-- C6 counterexample: a title containing both "contribution" and "annex"
processed under an observed contributions section is not ignored — when it
also contains "document" the entry is recorded as the documents-annexed
artifact. -/
theorem spec_c6_cex :
    containsSub (strLower "Documents annexed to the contribution") "contribution" = true
    ∧ containsSub (strLower "Documents annexed to the contribution") "annex" = true
    ∧ (extract_consultation_data mixedTitlePage (initData "u" "t")).has_documents_annexed
        = true
    ∧ (extract_consultation_data mixedTitlePage (initData "u" "t")).documents_annexed_url
        = some "https://ec.europa.eu/api/download/x1" := by
  decide

/-- C6 (amended): a title containing both "contribution" and "annex" is
never recorded as the contributions-ZIP artifact; under an observed
contributions section it is recorded as documents-annexed when the title
also contains "document"; otherwise it falls through to the summary-report
rule when a summary section was observed, and is ignored only when neither
applies. -/
theorem spec_c6 (hs hc : Bool) (titleLower latest : String) (d : ConsultationData)
    (hcon : containsSub titleLower "contribution" = true)
    (hann : containsSub titleLower "annex" = true) :
    ((classify hs hc titleLower latest d).has_contributions_zip = d.has_contributions_zip
      ∧ (classify hs hc titleLower latest d).contributions_zip_url = d.contributions_zip_url)
    ∧ (hc = true → containsSub titleLower "document" = true →
        (classify hs hc titleLower latest d).has_documents_annexed = true
        ∧ (classify hs hc titleLower latest d).documents_annexed_url = some latest)
    ∧ (containsSub titleLower "document" = false → hs = true →
        (classify hs hc titleLower latest d).has_summary_report = true
        ∧ (classify hs hc titleLower latest d).summary_report_url = some latest)
    ∧ (containsSub titleLower "document" = false → hs = false →
        classify hs hc titleLower latest d = d) := by
  refine ⟨?_, ?_, ?_, ?_⟩
  · unfold classify
    rw [hann]
    split_ifs <;> simp_all
  · intro hhc hdoc
    unfold classify
    rw [hann, hhc, hdoc, hcon]
    simp
  · intro hdoc hhs
    unfold classify
    rw [hann, hdoc, hhs]
    simp
  · intro hdoc hhs
    unfold classify
    rw [hann, hdoc, hhs]
    simp

/-- Witness for C6 with a contributions section, no summary section, and a
title holding "contribution" and "annex" but not "document". -/
theorem spec_c6_witness :
    classify false true "contribution annex" "l" (initData "u" "t") = initData "u" "t" :=
  (spec_c6 false true "contribution annex" "l" (initData "u" "t")
      (by decide) (by decide)).2.2.2 (by decide) rfl

/-- C7 counterexample: when an already-captured URL is requested again,
the code's attributed URL (last value of the URL-keyed capture map) is not
the latest matching request. -/
theorem spec_c7_cex :
    attributedUrl
        ["https://e/api/download/a", "https://e/api/download/b", "https://e/api/download/a"]
      ≠ latestMatchingRequest
        ["https://e/api/download/a", "https://e/api/download/b", "https://e/api/download/a"] := by
  decide

/-- C7 (amended): the capture map holds the matching requests in
first-occurrence order, so the URL the code attributes to an activation is
the most recently first-seen matching URL — not the latest matching
request when a previously seen URL recurs. -/
theorem spec_c7 (reqs : List String) :
    capturedAfter reqs
        = dedupFirst (reqs.filter (fun u => containsSub u "/api/download/"))
    ∧ attributedUrl reqs
        = (dedupFirst (reqs.filter (fun u => containsSub u "/api/download/"))).getLast? := by
  have h : capturedAfter reqs
      = dedupFirst (reqs.filter (fun u => containsSub u "/api/download/")) := by
    simpa [capturedAfter, dedupFirst] using foldl_captureRequest_eq reqs []
  exact ⟨h, by rw [attributedUrl, h]⟩

/-- C8: the walker's output is the first-occurrence dedup of the
normalized candidate URLs: duplicate-free, order-preserving (a subsequence
of the candidates), membership-equivalent to the candidates, every entry a
normalization of some discovered href, with later duplicates dropped. -/
theorem spec_c8 (pages : List (List Card)) :
    get_initiative_urls pages = dedupFirst (candidateUrls pages)
    ∧ (get_initiative_urls pages).Nodup
    ∧ (∀ u, u ∈ get_initiative_urls pages ↔ u ∈ candidateUrls pages)
    ∧ (get_initiative_urls pages).Sublist (candidateUrls pages)
    ∧ (∀ (c : Card) (u : String), cardUrl c = some u → ∃ href, u = normalizeUrl href)
    ∧ (∀ (l : List String) (a : String),
        dedupFirst (l ++ [a]) = if a ∈ l then dedupFirst l else dedupFirst l ++ [a]) := by
  have he := get_initiative_urls_eq pages
  refine ⟨he, ?_, ?_, ?_, ?_, dedupFirst_append_singleton⟩
  · rw [he]
    exact nodup_dedupFirst _
  · intro u
    rw [he]
    exact mem_dedupFirst _ u
  · rw [he]
    exact sublist_dedupFirst _
  · intro c u hcu
    cases hl : c.linkHref with
    | none => simp [cardUrl, hl] at hcu
    | some v =>
        cases v with
        | none => simp [cardUrl, hl] at hcu
        | some h =>
            by_cases hh : h = ""
            · simp [cardUrl, hl, hh] at hcu
            · simp [cardUrl, hl, hh] at hcu
              exact ⟨h, hcu.symm⟩

/-- Witness for C8: a concrete discovered href whose normalization appears
in the output. -/
theorem spec_c8_witness :
    ∃ href, "https://ec.europa.eu/initiatives/1_en" = normalizeUrl href :=
  (spec_c8 [[⟨some (some "/initiatives/1_en?a=b")⟩]]).2.2.2.2.1
    ⟨some (some "/initiatives/1_en?a=b")⟩ "https://ec.europa.eu/initiatives/1_en" (by decide)

/-- C9: the orchestrator output has exactly one record per discovered URL,
the k-th record being the extraction of the k-th URL, and every record is
a success or an error. -/
theorem spec_c9 (pages : List (List Card)) (beh : Nat → PageBehaviour)
    (ts : Nat → String) :
    (scrape_all_consultations pages beh ts).length = (get_initiative_urls pages).length
    ∧ (∀ k, (scrape_all_consultations pages beh ts).get? k
        = ((get_initiative_urls pages).get? k).map
            (fun url => scrape_consultation (beh k) url (ts k)))
    ∧ (∀ r, r ∈ scrape_all_consultations pages beh ts →
        r.scrape_status = "success" ∨ r.scrape_status = "error") := by
  have he : scrape_all_consultations pages beh ts
      = mapFrom beh ts 0 (get_initiative_urls pages) := by
    rw [scrape_all_consultations, scrapeLoop_eq]
    rfl
  refine ⟨?_, ?_, ?_⟩
  · rw [he]
    exact mapFrom_length beh ts _ 0
  · intro k
    rw [he]
    simpa using mapFrom_get? beh ts (get_initiative_urls pages) 0 k
  · intro r hr
    rw [he] at hr
    obtain ⟨j, url, rfl⟩ := mapFrom_mem beh ts _ 0 r hr
    rcases scrape_status_cases (beh j) url (ts j) with h | ⟨h, _⟩
    · exact Or.inl h
    · exact Or.inr h

/-- Witness for C9: the record of a concrete one-URL discovery is a
success or an error. -/
theorem spec_c9_witness :
    (scrape_consultation okBeh "https://ec.europa.eu/initiatives/1_en" "t").scrape_status
        = "success"
    ∨ (scrape_consultation okBeh "https://ec.europa.eu/initiatives/1_en" "t").scrape_status
        = "error" :=
  (spec_c9 [[⟨some (some "/initiatives/1_en")⟩]] (fun _ => okBeh) (fun _ => "t")).2.2
    (scrape_consultation okBeh "https://ec.europa.eu/initiatives/1_en" "t") (by decide)
